import Mathlib

/-!
Verification of the axle-load and traction/resistance numeric cores of the
UPC oilfield special-vehicles design repository, shallowly embedded in Lean
over exact rational arithmetic.

Modules embedded:
* `calculate.py` / `calculate_new.py` — `VehicleAxleLoadCalculator`:
  the EQUAL_PAIR model (`calculate_axle_loads` in `calculate.py`, identical
  body named `calculate_axle_loads_old` in `calculate_new.py`), the
  RIGID_FRAME model (`calculate_axle_loads_new_model`), the CG sweep
  (`analyze_load_distribution`, built on `np.arange`) and the equilibrium
  search in `find_special_points`.
* `dynamic_simulation.py` — `VehiclePerformanceAnalysis`:
  `calculate_tractive_force`, `calculate_resistance_force`, and the
  max-speed / max-gradeability parts of `calculate_performance_indicators`.

Python floats are modelled as exact rationals; the instance fields set in
`__init__` (which `interactive_analysis` may overwrite) are gathered into
explicit configuration records, with the `__init__` constants as the
default instances.
-/

namespace OilVehicle

/-- Configuration of `VehicleAxleLoadCalculator.__init__`: total weight and
the three inter-axle spacings.  Axle absolute positions are derived as in
the source: axle1 = 0, axle2 = L1, axle3 = L1+L2, axle4 = L1+L2+L3. -/
structure AxleCfg where
  total_weight : ℚ
  L1 : ℚ
  L2 : ℚ
  L3 : ℚ
deriving DecidableEq

/-- The constants assigned in `__init__` of both calculator files. -/
def defaultAxle : AxleCfg :=
  { total_weight := 24700, L1 := 1800, L2 := 4800, L3 := 1400 }

/-- Result dictionary of the axle-load computations.  `front_per_axle` /
`rear_per_axle` are the keys `front_per_axle` (`calculate.py`) resp.
`front_per_axle_avg` (`calculate_new.py`); both hold front/rear per-axle
values. -/
structure LoadResult where
  cg_position : ℚ
  cg_absolute : ℚ
  axle1_load : ℚ
  axle2_load : ℚ
  axle3_load : ℚ
  axle4_load : ℚ
  front_total : ℚ
  rear_total : ℚ
  front_per_axle : ℚ
  rear_per_axle : ℚ
deriving DecidableEq

/-- `calculate_axle_loads` of `calculate.py` (EQUAL_PAIR model):
`y = W*(L1 + 2*d)/(2*(L1 + 2*L2 + L3))`, `x = (W - 2*y)/2`, axles 1,2 carry
`x` each and axles 3,4 carry `y` each.  The body of
`calculate_axle_loads_old` in `calculate_new.py` is the same computation. -/
def calculate_axle_loads (cfg : AxleCfg) (d : ℚ) : LoadResult :=
  let W := cfg.total_weight
  let denominator := 2 * (cfg.L1 + 2 * cfg.L2 + cfg.L3)
  let y := W * (cfg.L1 + 2 * d) / denominator
  let x := (W - 2 * y) / 2
  { cg_position := d
    cg_absolute := cfg.L1 + d
    axle1_load := x
    axle2_load := x
    axle3_load := y
    axle4_load := y
    front_total := 2 * x
    rear_total := 2 * y
    front_per_axle := x
    rear_per_axle := y }

/-- `calculate_axle_loads_old` of `calculate_new.py`: same body as
`calculate_axle_loads` of `calculate.py`. -/
def calculate_axle_loads_old (cfg : AxleCfg) (d : ℚ) : LoadResult :=
  calculate_axle_loads cfg d

/-- `S1 = Σ d_i` in `calculate_axle_loads_new_model`, where
`d_i = x_i - cg_absolute` and `cg_absolute = L1 + cg_position`. -/
def newS1 (cfg : AxleCfg) (d : ℚ) : ℚ :=
  (0 - (cfg.L1 + d)) + (cfg.L1 - (cfg.L1 + d)) +
    (cfg.L1 + cfg.L2 - (cfg.L1 + d)) + (cfg.L1 + cfg.L2 + cfg.L3 - (cfg.L1 + d))

/-- `S2 = Σ d_i ** 2` in `calculate_axle_loads_new_model`. -/
def newS2 (cfg : AxleCfg) (d : ℚ) : ℚ :=
  (0 - (cfg.L1 + d)) ^ 2 + (cfg.L1 - (cfg.L1 + d)) ^ 2 +
    (cfg.L1 + cfg.L2 - (cfg.L1 + d)) ^ 2 + (cfg.L1 + cfg.L2 + cfg.L3 - (cfg.L1 + d)) ^ 2

/-- `denominator = 4 * S2 - S1 ** 2` in `calculate_axle_loads_new_model`. -/
def newDenominator (cfg : AxleCfg) (d : ℚ) : ℚ :=
  4 * newS2 cfg d - (newS1 cfg d) ^ 2

/-- Per-axle load formula of the RIGID_FRAME model:
`F_i = W * (S2 - S1 * d_i) / (4*S2 - S1^2)`, with `xi` the axle's absolute
position. -/
def newLoad (cfg : AxleCfg) (d xi : ℚ) : ℚ :=
  cfg.total_weight * (newS2 cfg d - newS1 cfg d * (xi - (cfg.L1 + d))) / newDenominator cfg d

/-- The non-degenerate (else) branch of `calculate_axle_loads_new_model`. -/
def newModelDirect (cfg : AxleCfg) (d : ℚ) : LoadResult :=
  let F1 := newLoad cfg d 0
  let F2 := newLoad cfg d cfg.L1
  let F3 := newLoad cfg d (cfg.L1 + cfg.L2)
  let F4 := newLoad cfg d (cfg.L1 + cfg.L2 + cfg.L3)
  { cg_position := d
    cg_absolute := cfg.L1 + d
    axle1_load := F1
    axle2_load := F2
    axle3_load := F3
    axle4_load := F4
    front_total := F1 + F2
    rear_total := F3 + F4
    front_per_axle := (F1 + F2) / 2
    rear_per_axle := (F3 + F4) / 2 }

/-- `calculate_axle_loads_new_model` of `calculate_new.py` (RIGID_FRAME
model): if `abs(denominator) < 1e-10` it prints a warning and returns
`calculate_axle_loads_old(cg_position)`; otherwise it returns the
`F_i = W*(S2 - S1*d_i)/denominator` record. -/
def calculate_axle_loads_new_model (cfg : AxleCfg) (d : ℚ) : LoadResult :=
  if |newDenominator cfg d| < 1 / 10000000000 then calculate_axle_loads_old cfg d
  else newModelDirect cfg d

/-- Model of `np.arange(start, stop, step)` on exact rationals: the values
`start + i*step` for `0 ≤ i < ⌈(stop - start)/step⌉` (empty when that
ceiling is not positive), exactly numpy's documented length formula. -/
def arange (start stop step : ℚ) : List ℚ :=
  (List.range (Int.toNat ⌈(stop - start) / step⌉)).map fun i : ℕ => start + (i : ℚ) * step

/-- `analyze_load_distribution` of `calculate.py`: maps
`calculate_axle_loads` over `np.arange(cg_range[0], cg_range[1] + step, step)`.
No validation of the range or the step is performed. -/
def analyze_load_distribution (cfg : AxleCfg) (start stop step : ℚ) : List LoadResult :=
  (arange start (stop + step) step).map (calculate_axle_loads cfg)

/-- `analyze_load_distribution` of `calculate_new.py`: same sweep, mapping
`calculate_axle_loads_new_model`. -/
def analyze_load_distribution_new (cfg : AxleCfg) (start stop step : ℚ) : List LoadResult :=
  (arange start (stop + step) step).map (calculate_axle_loads_new_model cfg)

/-- The quantity minimized by the equilibrium search in
`find_special_points`: `abs(r.front_total - r.rear_total)`. -/
def equilibriumDiff (r : LoadResult) : ℚ :=
  |r.front_total - r.rear_total|

/-- One step of the equilibrium loop of `find_special_points`: starting from
`min_diff = inf`, the running best is replaced exactly when the new sample's
difference is strictly smaller. -/
def equilibriumStep (best : Option LoadResult) (r : LoadResult) : Option LoadResult :=
  match best with
  | none => some r
  | some b => if equilibriumDiff r < equilibriumDiff b then some r else some b

/-- The equilibrium search of `find_special_points` (identical in both
calculator files): the first sample attaining the minimal
`abs(front_total - rear_total)`. -/
def find_equilibrium (results : List LoadResult) : Option LoadResult :=
  results.foldl equilibriumStep none

/-- Configuration of `VehiclePerformanceAnalysis.__init__` (all fields may
be overwritten by `interactive_analysis`, so the computations are modelled
as functions of this record).  `gear_ratios` is the gear table as an ordered
list (gear n has index n-1); `final_drive` is `final_drive_ratio`. -/
structure DynCfg where
  m : ℚ
  g : ℚ
  rho : ℚ
  Cd : ℚ
  A : ℚ
  f : ℚ
  eta_T : ℚ
  r : ℚ
  gear_ratios : List ℚ
  final_drive : ℚ
  engine_speed : List ℚ
  engine_torque : List ℚ
deriving DecidableEq

/-- The constants assigned in `VehiclePerformanceAnalysis.__init__`. -/
def defaultDyn : DynCfg :=
  { m := 24700
    g := 9.81
    rho := 1.204
    Cd := 0.6
    A := 10.1
    f := 0.05
    eta_T := 0.9
    r := 0.8235
    gear_ratios := [13.8, 11.54, 9.49, 7.93, 6.53, 5.46, 4.57, 3.82,
      3.02, 2.53, 2.08, 1.74, 1.43, 1.2, 1.0, 0.84]
    final_drive := 6.727
    engine_speed := [800, 1000, 1200, 1400, 1600, 1800, 1900, 2000, 2100, 2200]
    engine_torque := [2000, 2300, 2300, 2300, 2086, 1885, 1789, 1684, 1580, 1475] }

/-- `calculate_tractive_force` for gear number `gear` (1-based): pairs the
per-engine-sample speeds `0.377 * n * r / (ig * i0)` with the forces
`Ttq * ig * i0 * eta_T / r`. -/
def calculate_tractive_force (cfg : DynCfg) (gear : ℕ) : List (ℚ × ℚ) :=
  let ig := cfg.gear_ratios.getD (gear - 1) 0
  let i0 := cfg.final_drive
  (cfg.engine_speed.zip cfg.engine_torque).map fun p =>
    (0.377 * p.1 * cfg.r / (ig * i0), p.2 * ig * i0 * cfg.eta_T / cfg.r)

/-- Result record of `calculate_resistance_force`. -/
structure ResistForces where
  rolling : ℚ
  air : ℚ
  grade : ℚ
  total : ℚ
deriving DecidableEq

/-- `calculate_resistance_force`: rolling `m*g*f`, air
`0.5*Cd*A*rho*(v/3.6)^2`, grade 0, total their sum.  The source performs no
validation of the speed's sign. -/
def calculate_resistance_force (cfg : DynCfg) (v : ℚ) : ResistForces :=
  let vms := v / 3.6
  let rolling := cfg.m * cfg.g * cfg.f
  let air := 0.5 * cfg.Cd * cfg.A * cfg.rho * vms ^ 2
  let grade := 0
  { rolling := rolling, air := air, grade := grade, total := rolling + air + grade }

/-- The fixed speed grid `np.linspace(0, 220, 500)` used by
`calculate_performance_indicators`: points `220*i/499`, `i = 0..499`. -/
def speedGrid : List ℚ :=
  (List.range 500).map fun i : ℕ => 220 * (i : ℚ) / 499

/-- Model of `np.interp` over an increasing point list: clamps to the first
value below the first node and to the last value beyond the last node,
linear in between. -/
def interp (x : ℚ) : List (ℚ × ℚ) → ℚ
  | [] => 0
  | [p] => p.2
  | p :: q :: rest =>
      if x ≤ p.1 then p.2
      else if x ≤ q.1 then p.2 + (q.2 - p.2) * (x - p.1) / (q.1 - p.1)
      else interp x (q :: rest)

/-- The grid speeds at which the gear's interpolated tractive force is at
least the total resistance (`np.where(ft_interp >= resistances)` mapped
back to speeds). -/
def intersectionSpeeds (cfg : DynCfg) (gear : ℕ) : List ℚ :=
  speedGrid.filter fun v =>
    decide ((calculate_resistance_force cfg v).total ≤
      interp v (calculate_tractive_force cfg gear))

/-- The max-speed part of `calculate_performance_indicators`: the last grid
speed with tractive ≥ resistance, and the bare number 0 when no grid point
qualifies (the returned record carries no flag distinguishing the two). -/
def max_speed (cfg : DynCfg) (gear : ℕ) : ℚ :=
  ((intersectionSpeeds cfg gear).getLast?).getD 0

/-- Model of `np.argmin(np.abs(xs - target))`: first index minimizing the
absolute deviation. -/
def argminAbs (target : ℚ) (xs : List ℚ) : ℕ :=
  (List.range xs.length).foldl
    (fun best i => if |xs.getD i 0 - target| < |xs.getD best 0 - target| then i else best) 0

/-- `ft_1st[np.argmin(np.abs(v_1st - 10))]` generalized to a probe speed:
the tractive force at the curve sample nearest to the probe. -/
def tractiveAtNearest (cfg : DynCfg) (gear : ℕ) (probe : ℚ) : ℚ :=
  ((calculate_tractive_force cfg gear).map Prod.snd).getD
    (argminAbs probe ((calculate_tractive_force cfg gear).map Prod.fst)) 0

/-- `available_force = max_tractive_force - resistances_at_10['total']` with
the resistance taken at the exact probe speed. -/
def availableForce (cfg : DynCfg) (gear : ℕ) (probe : ℚ) : ℚ :=
  tractiveAtNearest cfg gear probe - (calculate_resistance_force cfg probe).total

/-- `sin_theta = min(max(available/(m*g), 0), 0.5)`: the clamped gradient
sine of the gradeability computation. -/
def sinThetaClamped (cfg : DynCfg) (gear : ℕ) (probe : ℚ) : ℚ :=
  min (max (availableForce cfg gear probe / (cfg.m * cfg.g)) 0) (1 / 2)

/-- `max_grade = arcsin(sin_theta) * 180 / pi` when the available force is
positive, else 0.  Real-valued model of the float trigonometry. -/
noncomputable def max_grade_deg (cfg : DynCfg) (gear : ℕ) (probe : ℚ) : ℝ :=
  if 0 < availableForce cfg gear probe then
    Real.arcsin ((sinThetaClamped cfg gear probe : ℚ) : ℝ) * 180 / Real.pi
  else 0

/-- `max_grade_percent = tan(arcsin(sin_theta)) * 100` when the available
force is positive, else 0. -/
noncomputable def max_grade_percent (cfg : DynCfg) (gear : ℕ) (probe : ℚ) : ℝ :=
  if 0 < availableForce cfg gear probe then
    Real.tan (Real.arcsin ((sinThetaClamped cfg gear probe : ℚ) : ℝ)) * 100
  else 0

/-- Zero-torque configuration exercising the nonpositive-available-force
branch of the gradeability computation. -/
def cfgZeroTorque : DynCfg :=
  { m := 1, g := 1, rho := 0, Cd := 0, A := 0, f := 1, eta_T := 1, r := 1,
    gear_ratios := [1], final_drive := 1, engine_speed := [0], engine_torque := [0] }

/-- Configuration whose tractive curve (constant force 1/2) stays strictly
below the constant resistance 1 at every grid speed: no intersection. -/
def cfgNoInter : DynCfg :=
  { m := 1, g := 1, rho := 0, Cd := 0, A := 0, f := 1, eta_T := 1, r := 1,
    gear_ratios := [1], final_drive := 1, engine_speed := [0], engine_torque := [1 / 2] }

/-- Configuration whose tractive curve meets the constant resistance 1
exactly at grid speed 0 and is strictly below it at every later grid
point: a genuine zero top speed found by the intersection scan. -/
def cfgZeroTop : DynCfg :=
  { m := 1, g := 1, rho := 0, Cd := 0, A := 0, f := 1, eta_T := 1, r := 1,
    gear_ratios := [1], final_drive := 1,
    engine_speed := [0, 220000 / 377], engine_torque := [1, 0] }

/-- A degenerate geometry (all spacings 0) on which the RIGID_FRAME
denominator vanishes, exercising the fallback guard. -/
def degenerateAxle : AxleCfg :=
  { total_weight := 24700, L1 := 0, L2 := 0, L3 := 0 }

/-- On the default configuration the RIGID_FRAME denominator is the constant
`174240000`, independent of the CG position. -/
theorem newDenominator_default (d : ℚ) :
    newDenominator defaultAxle d = 174240000 := by
  simp only [newDenominator, newS1, newS2, defaultAxle]
  ring

/-- The degenerate-fallback guard is false on the default configuration. -/
theorem newModel_guard_false (d : ℚ) :
    ¬ |newDenominator defaultAxle d| < 1 / 10000000000 := by
  rw [newDenominator_default]
  norm_num

/-- C1: For every CG offset (negative included), the four per-axle loads of
the EQUAL_PAIR model and of the RIGID_FRAME model (whose guard is never
degenerate on the default configuration) sum exactly to the configured
total weight 24700. -/
theorem C1_loads_sum_to_total_weight (d : ℚ) :
    ((calculate_axle_loads defaultAxle d).axle1_load +
      (calculate_axle_loads defaultAxle d).axle2_load +
      (calculate_axle_loads defaultAxle d).axle3_load +
      (calculate_axle_loads defaultAxle d).axle4_load = 24700) ∧
    ((calculate_axle_loads_new_model defaultAxle d).axle1_load +
      (calculate_axle_loads_new_model defaultAxle d).axle2_load +
      (calculate_axle_loads_new_model defaultAxle d).axle3_load +
      (calculate_axle_loads_new_model defaultAxle d).axle4_load = 24700) := by
  constructor
  · simp only [calculate_axle_loads, defaultAxle]
    ring
  · rw [calculate_axle_loads_new_model, if_neg (newModel_guard_false d)]
    simp only [newModelDirect, newLoad, newDenominator_default]
    simp only [newS1, newS2, defaultAxle]
    ring

/-- C2: the EQUAL_PAIR model returns equal loads on axles 1,2 and on axles
3,4, with the documented closed-form values and totals. -/
theorem C2_equal_pair_formula (d : ℚ) :
    ((calculate_axle_loads defaultAxle d).axle1_load =
      (calculate_axle_loads defaultAxle d).axle2_load) ∧
    ((calculate_axle_loads defaultAxle d).axle3_load =
      (calculate_axle_loads defaultAxle d).axle4_load) ∧
    ((calculate_axle_loads defaultAxle d).axle3_load =
      24700 * (1800 + 2 * d) / (2 * (1800 + 2 * 4800 + 1400))) ∧
    ((calculate_axle_loads defaultAxle d).axle1_load =
      (24700 - 2 * (24700 * (1800 + 2 * d) / (2 * (1800 + 2 * 4800 + 1400)))) / 2) ∧
    ((calculate_axle_loads defaultAxle d).front_total =
      2 * (calculate_axle_loads defaultAxle d).axle1_load) ∧
    ((calculate_axle_loads defaultAxle d).rear_total =
      2 * (calculate_axle_loads defaultAxle d).axle3_load) ∧
    calculate_axle_loads_old defaultAxle d = calculate_axle_loads defaultAxle d := by
  refine ⟨rfl, rfl, ?_, ?_, rfl, rfl, rfl⟩ <;> norm_num [calculate_axle_loads, defaultAxle]

/-- C10: on the configured axle positions (0, 1800, 6600, 8000 mm) the
RIGID_FRAME denominator `4*S2 - S1**2` equals the CG-independent constant
`174240000 = Σ_(i<j) (x_i - x_j)^2`, so the `abs(denominator) < 1e-10`
fallback branch is unreachable: the model always returns the direct
`F_i` record. -/
theorem C10_denominator_constant (d : ℚ) :
    newDenominator defaultAxle d = 174240000 ∧
    (174240000 : ℚ) =
      (1800 - 0) ^ 2 + (6600 - 0) ^ 2 + (8000 - 0) ^ 2 +
        (6600 - 1800) ^ 2 + (8000 - 1800) ^ 2 + (8000 - 6600) ^ 2 ∧
    calculate_axle_loads_new_model defaultAxle d = newModelDirect defaultAxle d := by
  refine ⟨newDenominator_default d, by norm_num, ?_⟩
  rw [calculate_axle_loads_new_model, if_neg (newModel_guard_false d)]

/-- Projecting out the CG offset returns the computation's input. -/
theorem cg_position_calculate (cfg : AxleCfg) (d : ℚ) :
    (calculate_axle_loads cfg d).cg_position = d := rfl

/-- The CG offsets visited by the sweep are exactly the `arange` values. -/
theorem analyze_offsets (cfg : AxleCfg) (start stop step : ℚ) :
    (analyze_load_distribution cfg start stop step).map LoadResult.cg_position =
      arange start (stop + step) step := by
  simp [analyze_load_distribution, List.map_map, Function.comp_def, cg_position_calculate]

/-- Also the RIGID_FRAME result echoes its input CG offset (both branches). -/
theorem cg_position_calculate_new (cfg : AxleCfg) (d : ℚ) :
    (calculate_axle_loads_new_model cfg d).cg_position = d := by
  rw [calculate_axle_loads_new_model]
  split <;> rfl

/-- The `calculate_new.py` sweep visits the same `arange` offsets. -/
theorem analyze_offsets_new (cfg : AxleCfg) (start stop step : ℚ) :
    (analyze_load_distribution_new cfg start stop step).map LoadResult.cg_position =
      arange start (stop + step) step := by
  simp [analyze_load_distribution_new, List.map_map, Function.comp_def,
    cg_position_calculate_new]

/-- C3 counterexample: with `cg_range = (5, 4)` (start > end) and `step = 2`
the sweep raises nothing and silently produces a sample at offset 5,
contradicting the claim that such inputs fail fast with InvalidRange and
never yield samples. -/
theorem C3_counterexample :
    (analyze_load_distribution defaultAxle 5 4 2).map LoadResult.cg_position = [5] ∧
    (analyze_load_distribution_new defaultAxle 5 4 2).map LoadResult.cg_position = [5] ∧
    (analyze_load_distribution defaultAxle 5 4 2).length = 1 := by
  have harange : arange 5 (4 + 2) 2 = [5] := by
    rw [arange]
    have hc : ⌈((4 : ℚ) + 2 - 5) / 2⌉ = 1 := by
      rw [Int.ceil_eq_iff]
      constructor <;> norm_num
    rw [hc]
    simp [List.range_succ]
  have h : (analyze_load_distribution defaultAxle 5 4 2).map LoadResult.cg_position = [5] := by
    rw [analyze_offsets, harange]
  have hnew :
      (analyze_load_distribution_new defaultAxle 5 4 2).map LoadResult.cg_position = [5] := by
    rw [analyze_offsets_new, harange]
  refine ⟨h, hnew, ?_⟩
  have hlen := congrArg List.length h
  simpa using hlen

/-- C3 (amended): the sweep performs no range validation and cannot fail:
for `start > end` with `step > 0` it silently returns the `np.arange`
sequence, which is the single sample at `start` when `start < end + step`
and the empty sequence otherwise; no InvalidRange error exists. -/
theorem C3_no_range_validation (start stop step : ℚ) (hstep : 0 < step)
    (hlt : stop < start) :
    ((analyze_load_distribution defaultAxle start stop step).map LoadResult.cg_position =
      if start < stop + step then [start] else []) ∧
    ((analyze_load_distribution_new defaultAxle start stop step).map LoadResult.cg_position =
      if start < stop + step then [start] else []) := by
  have harange : arange start (stop + step) step =
      if start < stop + step then [start] else [] := by
    rw [arange]
    by_cases hin : start < stop + step
    · rw [if_pos hin]
      have hnum : (0 : ℚ) < stop + step - start := by linarith
      have h1 : ⌈(stop + step - start) / step⌉ = 1 := by
        rw [Int.ceil_eq_iff]
        constructor
        · push_cast
          linarith [div_pos hnum hstep]
        · push_cast
          exact (div_le_one hstep).mpr (by linarith)
      rw [h1]
      simp [List.range_succ]
    · rw [if_neg hin]
      have h0 : ⌈(stop + step - start) / step⌉ ≤ 0 := by
        rw [Int.ceil_le]
        push_cast
        apply div_nonpos_of_nonpos_of_nonneg _ hstep.le
        linarith
      rw [Int.toNat_of_nonpos h0]
      simp
  rw [analyze_offsets, analyze_offsets_new, harange]
  exact ⟨rfl, rfl⟩

/-- Witness for the amended C3 at the concrete range (5, 4) with step 2. -/
theorem C3_no_range_validation_witness :
    (0 : ℚ) < 2 ∧ (4 : ℚ) < 5 ∧
      ((analyze_load_distribution defaultAxle 5 4 2).map LoadResult.cg_position =
        if (5 : ℚ) < 4 + 2 then [5] else []) ∧
      ((analyze_load_distribution_new defaultAxle 5 4 2).map LoadResult.cg_position =
        if (5 : ℚ) < 4 + 2 then [5] else []) :=
  ⟨by norm_num, by norm_num, C3_no_range_validation 5 4 2 (by norm_num) (by norm_num)⟩

/-- C8 counterexample: with range (0, 250) and step 100 (step not dividing
the range) the sweep samples offsets 0, 100, 200, 300 — the last sample 300
exceeds `end = 250` and no sample equals `end`, contradicting the claim. -/
theorem C8_counterexample :
    (analyze_load_distribution defaultAxle 0 250 100).map LoadResult.cg_position =
      [0, 100, 200, 300] ∧
    (analyze_load_distribution_new defaultAxle 0 250 100).map LoadResult.cg_position =
      [0, 100, 200, 300] := by
  have harange : arange 0 (250 + 100) 100 = [0, 100, 200, 300] := by
    rw [arange]
    have hc : ⌈((250 : ℚ) + 100 - 0) / 100⌉ = 4 := by
      rw [Int.ceil_eq_iff]
      constructor <;> norm_num
    rw [hc]
    rw [show Int.toNat 4 = 4 from rfl]
    norm_num [List.range_succ]
  constructor
  · rw [analyze_offsets, harange]
  · rw [analyze_offsets_new, harange]

/-- C8 (amended): when additionally the step divides `end - start` (say
`end = start + k*step`), the sweep visits exactly `start, start+step, …, end`
inclusive: the offsets are `start + i*step` for `i = 0..k`, the last offset
equals `end`, and no offset exceeds `end`.  (When the step does not divide
the range, the last sample overshoots `end` by less than one step.) -/
theorem C8_sweep_inclusive_grid (start stop step : ℚ) (k : ℕ) (hstep : 0 < step)
    (hstop : stop = start + k * step) :
    (analyze_load_distribution defaultAxle start stop step).map LoadResult.cg_position =
      (List.range (k + 1)).map (fun i : ℕ => start + (i : ℚ) * step) ∧
    (analyze_load_distribution_new defaultAxle start stop step).map LoadResult.cg_position =
      (analyze_load_distribution defaultAxle start stop step).map LoadResult.cg_position ∧
    ((analyze_load_distribution defaultAxle start stop step).map
        LoadResult.cg_position).getLast? = some stop ∧
    ∀ v ∈ (analyze_load_distribution defaultAxle start stop step).map
        LoadResult.cg_position, v ≤ stop := by
  have hoff :
      (analyze_load_distribution defaultAxle start stop step).map LoadResult.cg_position =
        (List.range (k + 1)).map (fun i : ℕ => start + (i : ℚ) * step) := by
    rw [analyze_offsets, arange]
    have hcount : ⌈(stop + step - start) / step⌉ = (k + 1 : ℕ) := by
      have : (stop + step - start) / step = ((k + 1 : ℕ) : ℚ) := by
        rw [hstop]
        push_cast
        field_simp
        ring
      rw [this, Int.ceil_natCast]
    rw [hcount, Int.toNat_natCast]
  refine ⟨hoff, by rw [analyze_offsets, analyze_offsets_new], ?_, ?_⟩
  · rw [hoff, List.range_succ, List.map_append, List.map_singleton,
      List.getLast?_concat, hstop]
  · intro v hv
    rw [hoff] at hv
    obtain ⟨i, hi, rfl⟩ := List.mem_map.mp hv
    rw [List.mem_range, Nat.lt_succ_iff] at hi
    rw [hstop]
    have : (i : ℚ) ≤ (k : ℚ) := by exact_mod_cast hi
    nlinarith

/-- Witness for the amended C8 on the range (0, 200), step 100, k = 2. -/
theorem C8_sweep_inclusive_grid_witness :
    (0 : ℚ) < 100 ∧ (200 : ℚ) = 0 + (2 : ℕ) * 100 ∧
      ((analyze_load_distribution defaultAxle 0 200 100).map LoadResult.cg_position =
          (List.range (2 + 1)).map (fun i : ℕ => 0 + (i : ℚ) * 100) ∧
        (analyze_load_distribution_new defaultAxle 0 200 100).map LoadResult.cg_position =
          (analyze_load_distribution defaultAxle 0 200 100).map LoadResult.cg_position ∧
        ((analyze_load_distribution defaultAxle 0 200 100).map
            LoadResult.cg_position).getLast? = some 200 ∧
        ∀ v ∈ (analyze_load_distribution defaultAxle 0 200 100).map
            LoadResult.cg_position, v ≤ 200) :=
  ⟨by norm_num, by norm_num,
    C8_sweep_inclusive_grid 0 200 100 2 (by norm_num) (by norm_num)⟩

/-- Running the equilibrium loop from a current best `b` over the remaining
samples returns the first sample of `b :: l` attaining the minimal
difference: everything before it has strictly larger difference, everything
after it has difference at least as large. -/
theorem foldl_equilibrium_spec (l : List LoadResult) (b : LoadResult) :
    ∃ c pre post, List.foldl equilibriumStep (some b) l = some c ∧
      b :: l = pre ++ c :: post ∧
      (∀ t ∈ pre, equilibriumDiff c < equilibriumDiff t) ∧
      (∀ t ∈ post, equilibriumDiff c ≤ equilibriumDiff t) := by
  induction l generalizing b with
  | nil =>
    exact ⟨b, [], [], rfl, rfl, by simp, by simp⟩
  | cons r l ih =>
    by_cases h : equilibriumDiff r < equilibriumDiff b
    · obtain ⟨c, pre, post, hfold, hdecomp, hpre, hpost⟩ := ih r
      have hstep : List.foldl equilibriumStep (some b) (r :: l) =
          List.foldl equilibriumStep (some r) l := by
        simp only [List.foldl_cons, equilibriumStep, if_pos h]
      have hcb : equilibriumDiff c < equilibriumDiff b := by
        cases pre with
        | nil =>
          obtain ⟨rfl, -⟩ := List.cons.inj hdecomp
          exact h
        | cons p ps =>
          obtain ⟨rfl, -⟩ := List.cons.inj hdecomp
          exact lt_trans (hpre r (by simp)) h
      refine ⟨c, b :: pre, post, hstep.trans hfold, by simp [hdecomp], ?_, hpost⟩
      intro t ht
      rcases List.mem_cons.mp ht with rfl | ht
      · exact hcb
      · exact hpre t ht
    · obtain ⟨c, pre, post, hfold, hdecomp, hpre, hpost⟩ := ih b
      have hstep : List.foldl equilibriumStep (some b) (r :: l) =
          List.foldl equilibriumStep (some b) l := by
        simp only [List.foldl_cons, equilibriumStep, if_neg h]
      have hbr : equilibriumDiff b ≤ equilibriumDiff r := not_lt.mp h
      cases pre with
      | nil =>
        obtain ⟨hbc, hlpost⟩ := List.cons.inj hdecomp
        refine ⟨c, [], r :: post, hstep.trans hfold, by rw [hbc, hlpost]; rfl, by simp, ?_⟩
        intro t ht
        rcases List.mem_cons.mp ht with rfl | ht
        · rw [← hbc]
          exact hbr
        · exact hpost t ht
      | cons p ps =>
        obtain ⟨rfl, hl⟩ := List.cons.inj hdecomp
        have hcp : equilibriumDiff c < equilibriumDiff b := hpre b (by simp)
        refine ⟨c, b :: r :: ps, post, hstep.trans hfold, by simp [hl], ?_, hpost⟩
        intro t ht
        rcases List.mem_cons.mp ht with rfl | ht
        · exact hcp
        · rcases List.mem_cons.mp ht with rfl | ht
          · exact lt_of_lt_of_le hcp hbr
          · exact hpre t (by simp [ht])

/-- C9: on every non-empty sample list, `find_special_points`' equilibrium
search returns the sample minimizing `abs(front_total - rear_total)`, and
among samples attaining the minimum the first in sweep order (everything
before the returned sample has strictly larger difference). -/
theorem C9_find_equilibrium_first_min (l : List LoadResult) (h : l ≠ []) :
    ∃ s pre post, find_equilibrium l = some s ∧
      (∀ t ∈ l, equilibriumDiff s ≤ equilibriumDiff t) ∧
      l = pre ++ s :: post ∧
      (∀ t ∈ pre, equilibriumDiff s < equilibriumDiff t) := by
  cases l with
  | nil => exact absurd rfl h
  | cons a l =>
    obtain ⟨c, pre, post, hfold, hdecomp, hpre, hpost⟩ := foldl_equilibrium_spec l a
    refine ⟨c, pre, post, hfold, ?_, hdecomp, hpre⟩
    intro t ht
    rw [hdecomp] at ht
    rcases List.mem_append.mp ht with h1 | h2
    · exact (hpre t h1).le
    · rcases List.mem_cons.mp h2 with rfl | h3
      · exact le_refl _
      · exact hpost t h3

/-- Witness for C9 on the two-sample sweep list at CG offsets 0 and 100 mm. -/
theorem C9_find_equilibrium_first_min_witness :
    ([calculate_axle_loads defaultAxle 0, calculate_axle_loads defaultAxle 100] ≠
        ([] : List LoadResult)) ∧
      ∃ s pre post,
        find_equilibrium
            [calculate_axle_loads defaultAxle 0, calculate_axle_loads defaultAxle 100] =
          some s ∧
        (∀ t ∈ [calculate_axle_loads defaultAxle 0, calculate_axle_loads defaultAxle 100],
          equilibriumDiff s ≤ equilibriumDiff t) ∧
        [calculate_axle_loads defaultAxle 0, calculate_axle_loads defaultAxle 100] =
          pre ++ s :: post ∧
        (∀ t ∈ pre, equilibriumDiff s < equilibriumDiff t) :=
  ⟨by simp, C9_find_equilibrium_first_min _ (by simp)⟩

/-- C5 counterexample: the resistance computation accepts the negative
speed -10 km/h without any failure and returns the well-defined total
`m*g*f + 0.5*Cd*A*rho*(10/3.6)^2 = 13114979/1080` on the default
configuration, contradicting the claimed fail-fast InvalidInput. -/
theorem C5_counterexample :
    (calculate_resistance_force defaultDyn (-10)).total = 13114979 / 1080 := by
  norm_num [calculate_resistance_force, defaultDyn]

/-- C5 (amended): the resistance computation validates nothing and is
defined for every speed, negative included; since the air term squares the
speed, the result at `-v` coincides with the result at `v`. -/
theorem C5_resistance_defined_for_all_speeds (cfg : DynCfg) (v : ℚ) :
    calculate_resistance_force cfg (-v) = calculate_resistance_force cfg v := by
  have hair : (-v / 3.6 : ℚ) ^ 2 = (v / 3.6) ^ 2 := by ring
  simp [calculate_resistance_force, hair]

/-- C7: the gradeability computation clamps `sin(theta)` into `[0, 1/2]`,
so the reported angle `arcsin(sin_theta)*180/pi` never exceeds
`arcsin(0.5) = 30` degrees for any configuration (however large the
tractive force), and whenever the available force is nonpositive both the
degree and percent outputs are 0 with no failure. -/
theorem C7_gradeability_clamped (cfg : DynCfg) (gear : ℕ) (probe : ℚ) :
    (0 ≤ sinThetaClamped cfg gear probe ∧ sinThetaClamped cfg gear probe ≤ 1 / 2) ∧
    max_grade_deg cfg gear probe ≤ 30 ∧
    (availableForce cfg gear probe ≤ 0 →
      max_grade_deg cfg gear probe = 0 ∧ max_grade_percent cfg gear probe = 0) := by
  have h0 : (0 : ℚ) ≤ sinThetaClamped cfg gear probe :=
    le_min (le_max_right _ _) (by norm_num)
  have h12 : sinThetaClamped cfg gear probe ≤ 1 / 2 := min_le_right _ _
  refine ⟨⟨h0, h12⟩, ?_, ?_⟩
  · rw [max_grade_deg]
    by_cases h : 0 < availableForce cfg gear probe
    · rw [if_pos h]
      have hpi := Real.pi_pos
      have hcast : ((sinThetaClamped cfg gear probe : ℚ) : ℝ) ≤ 1 / 2 := by
        have h' := (Rat.cast_le (K := ℝ)).mpr h12
        simpa using h'
      have harc : Real.arcsin ((sinThetaClamped cfg gear probe : ℚ) : ℝ) ≤ Real.pi / 6 := by
        calc Real.arcsin ((sinThetaClamped cfg gear probe : ℚ) : ℝ)
            ≤ Real.arcsin (1 / 2) := Real.monotone_arcsin hcast
          _ = Real.pi / 6 := by
              rw [← Real.sin_pi_div_six]
              exact Real.arcsin_sin (by linarith) (by linarith)
      calc Real.arcsin ((sinThetaClamped cfg gear probe : ℚ) : ℝ) * 180 / Real.pi
          ≤ (Real.pi / 6) * 180 / Real.pi := by gcongr
        _ = 30 := by field_simp; ring
    · rw [if_neg h]
      norm_num
  · intro h
    have hn : ¬ 0 < availableForce cfg gear probe := not_lt.mpr h
    rw [max_grade_deg, if_neg hn, max_grade_percent, if_neg hn]
    exact ⟨rfl, rfl⟩

/-- Witness for C7 at a zero-torque configuration: the available force is
nonpositive and both gradeability outputs are 0. -/
theorem C7_gradeability_clamped_witness :
    availableForce cfgZeroTorque 1 10 ≤ 0 ∧
      max_grade_deg cfgZeroTorque 1 10 = 0 ∧ max_grade_percent cfgZeroTorque 1 10 = 0 := by
  have h : availableForce cfgZeroTorque 1 10 ≤ 0 := by
    norm_num [availableForce, tractiveAtNearest, argminAbs, calculate_tractive_force,
      calculate_resistance_force, cfgZeroTorque, List.range_succ]
  exact ⟨h, (C7_gradeability_clamped cfgZeroTorque 1 10).2.2 h⟩

/-- Total resistance is constantly 1 on `cfgNoInter`. -/
theorem resist_cfgNoInter (v : ℚ) : (calculate_resistance_force cfgNoInter v).total = 1 := by
  norm_num [calculate_resistance_force, cfgNoInter]

/-- Total resistance is constantly 1 on `cfgZeroTop`. -/
theorem resist_cfgZeroTop (v : ℚ) : (calculate_resistance_force cfgZeroTop v).total = 1 := by
  norm_num [calculate_resistance_force, cfgZeroTop]

/-- The gear-1 tractive curve of `cfgNoInter` is the single point (0, 1/2). -/
theorem curve_cfgNoInter : calculate_tractive_force cfgNoInter 1 = [(0, 1 / 2)] := by
  norm_num [calculate_tractive_force, cfgNoInter]

/-- The gear-1 tractive curve of `cfgZeroTop` is [(0, 1), (220, 0)]. -/
theorem curve_cfgZeroTop : calculate_tractive_force cfgZeroTop 1 = [(0, 1), (220, 0)] := by
  norm_num [calculate_tractive_force, cfgZeroTop]

/-- Interpolation on the two-point curve [(0, 1), (220, 0)] inside the
segment. -/
theorem interp_cfgZeroTop (v : ℚ) (h0 : 0 < v) (h220 : v ≤ 220) :
    interp v [(0, 1), (220, 0)] = 1 - v / 220 := by
  rw [interp, if_neg (not_le.mpr h0), if_pos h220]
  norm_num
  ring

/-- `cfgNoInter` has no intersection at any grid point. -/
theorem intersections_cfgNoInter : intersectionSpeeds cfgNoInter 1 = [] := by
  simp only [intersectionSpeeds, curve_cfgNoInter]
  apply List.filter_eq_nil_iff.mpr
  intro v hv
  simp only [resist_cfgNoInter, interp, decide_eq_true_eq]
  norm_num

/-- `cfgZeroTop` intersects exactly at grid speed 0. -/
theorem intersections_cfgZeroTop : intersectionSpeeds cfgZeroTop 1 = [0] := by
  simp only [intersectionSpeeds, curve_cfgZeroTop, speedGrid]
  rw [show (500 : ℕ) = 499 + 1 from rfl, List.range_succ_eq_map, List.map_cons,
    List.filter_cons]
  have hz : (220 * ((0 : ℕ) : ℚ) / 499) = 0 := by norm_num
  rw [hz]
  have hp0 : decide ((calculate_resistance_force cfgZeroTop 0).total ≤
      interp 0 [(0, 1), (220, 0)]) = true := by
    rw [decide_eq_true_eq, resist_cfgZeroTop, interp, if_pos le_rfl]
  rw [if_pos hp0]
  have hrest : List.filter (fun v =>
      decide ((calculate_resistance_force cfgZeroTop v).total ≤
        interp v [(0, 1), (220, 0)]))
      (List.map (fun i : ℕ => 220 * ((i : ℚ)) / 499) (List.map Nat.succ (List.range 499)))
      = [] := by
    apply List.filter_eq_nil_iff.mpr
    intro v hv
    rw [List.map_map] at hv
    obtain ⟨i, hi, rfl⟩ := List.mem_map.mp hv
    rw [List.mem_range] at hi
    simp only [Function.comp_apply, decide_eq_true_eq, resist_cfgZeroTop]
    have hpos : (0 : ℚ) < 220 * ((Nat.succ i : ℕ) : ℚ) / 499 := by
      have : (0 : ℚ) < ((Nat.succ i : ℕ) : ℚ) := by
        exact_mod_cast Nat.succ_pos i
      positivity
    have hle : (220 * ((Nat.succ i : ℕ) : ℚ) / 499) ≤ 220 := by
      have hcast : ((Nat.succ i : ℕ) : ℚ) ≤ 499 := by
        exact_mod_cast Nat.succ_le_of_lt hi
      rw [div_le_iff₀ (by norm_num : (0 : ℚ) < 499)]
      nlinarith
    rw [interp_cfgZeroTop _ hpos hle]
    intro habs
    nlinarith
  rw [hrest]

/-- C4 counterexample: a configuration with no intersection at any grid
point (`cfgNoInter`) and a configuration legitimately topping out at grid
speed 0 (`cfgZeroTop`, which intersects at speed 0) produce the identical
bare output `max_speed = 0`; the code returns no flag and the two outcomes
are indistinguishable, contradicting the claim. -/
theorem C4_counterexample :
    intersectionSpeeds cfgNoInter 1 = [] ∧
    intersectionSpeeds cfgZeroTop 1 = [0] ∧
    max_speed cfgNoInter 1 = 0 ∧
    max_speed cfgZeroTop 1 = 0 := by
  refine ⟨intersections_cfgNoInter, intersections_cfgZeroTop, ?_, ?_⟩
  · rw [max_speed, intersections_cfgNoInter]
    rfl
  · rw [max_speed, intersections_cfgZeroTop]
    rfl

/-- C4 (amended): `max_speed` returns the last grid speed at which the
gear's interpolated tractive force is ≥ the total resistance, and the bare
number 0 when the tractive curve is below resistance at every grid point;
no explicit no-intersection flag exists, so that outcome is not
distinguishable from a genuine zero top speed. -/
theorem C4_max_speed_last_or_zero (cfg : DynCfg) (gear : ℕ) :
    (intersectionSpeeds cfg gear = [] → max_speed cfg gear = 0) ∧
    ∀ h : intersectionSpeeds cfg gear ≠ [],
      max_speed cfg gear = (intersectionSpeeds cfg gear).getLast h := by
  constructor
  · intro h
    show ((intersectionSpeeds cfg gear).getLast?).getD 0 = _
    rw [h]
    rfl
  · intro h
    show ((intersectionSpeeds cfg gear).getLast?).getD 0 = _
    rw [List.getLast?_eq_getLast_of_ne_nil h]
    exact Option.getD_some

/-- Witness for the amended C4 at `cfgNoInter` (empty intersection set)
and `cfgZeroTop` (intersection set [0]). -/
theorem C4_max_speed_last_or_zero_witness :
    intersectionSpeeds cfgNoInter 1 = [] ∧ max_speed cfgNoInter 1 = 0 :=
  ⟨intersections_cfgNoInter,
    (C4_max_speed_last_or_zero cfgNoInter 1).1 intersections_cfgNoInter⟩

/-- C6: whenever the RIGID_FRAME denominator satisfies
`abs(4*S2 - S1**2) < 1e-10`, the computation returns exactly the
EQUAL_PAIR (old-model) result for the same CG offset instead of raising;
the accompanying warning is a print side effect outside the embedding. -/
theorem C6_degenerate_fallback (cfg : AxleCfg) (d : ℚ)
    (h : |newDenominator cfg d| < 1 / 10000000000) :
    calculate_axle_loads_new_model cfg d = calculate_axle_loads_old cfg d := by
  rw [calculate_axle_loads_new_model, if_pos h]

/-- Witness for C6 on the degenerate geometry with all spacings zero. -/
theorem C6_degenerate_fallback_witness :
    |newDenominator degenerateAxle 0| < 1 / 10000000000 ∧
      calculate_axle_loads_new_model degenerateAxle 0 =
        calculate_axle_loads_old degenerateAxle 0 := by
  have h : |newDenominator degenerateAxle 0| < (1 : ℚ) / 10000000000 := by
    norm_num [newDenominator, newS1, newS2, degenerateAxle]
  exact ⟨h, C6_degenerate_fallback degenerateAxle 0 h⟩

end OilVehicle
